import Mathlib

/-!
# Verification of the pydantic-prompter prompt pipeline

A shallow embedding of `src/pydatic_prompter/prompter.py`: the `Message`
value type, the prompt compiler `_Pr.build_prompt` (template rendering,
turn segmentation on the literal `">> "` delimiter, YAML-shaped segment
parsing, JSON serialization of turn content), the schema deriver
(`PydanticParser.llm_schema` / `cast_result`), the call pipeline
`_Pr.__call__` with its `retry(tries=3, delay=1)` decorator and error
enrichment, and the `Prompter` factory.

External libraries (PyYAML's `safe_load`, `json.dumps` / `json.loads`,
`jinja2` rendering, `str.format`) are modelled by executable Lean
functions faithful to the library behaviour on the fragment this
repository exercises; each model's doc comment states its fragment.
-/

/-- A JSON-serializable Python value: the values `yaml.safe_load` and
`json.loads` produce on the fragment exercised here (mappings are
string-keyed association lists in document order). -/
inductive JVal where
  | null
  | bool (b : Bool)
  | num (i : Int)
  | str (s : String)
  | arr (elements : List JVal)
  | obj (fields : List (String × JVal))

/-- The character for a decimal digit `d < 10`. -/
def digitChar (d : Nat) : Char := Char.ofNat (48 + d)

/-- Decimal digit characters of `n` prepended to `acc`, least significant
digit innermost; structural on the fuel so the kernel can evaluate it. -/
def natCharsGo : Nat → Nat → List Char → List Char
  | 0, _, acc => acc
  | f + 1, n, acc =>
    if n < 10 then digitChar n :: acc
    else natCharsGo f (n / 10) (digitChar (n % 10) :: acc)

/-- Decimal characters of a natural number, most significant digit first. -/
def natChars (n : Nat) : List Char := natCharsGo (n + 1) n []

/-- Python's decimal rendering of an `int`: optional minus sign, then digits. -/
def intChars (i : Int) : List Char :=
  if i < 0 then '-' :: natChars i.natAbs else natChars i.natAbs

/-- Lower-case hexadecimal digit character for `d < 16`. -/
def hexChar (d : Nat) : Char :=
  if d < 10 then Char.ofNat (48 + d) else Char.ofNat (87 + d)

/-- Model of the JSON string escaping `json.dumps` applies to one character:
`\"`, `\\`, the short escapes `\n` `\t` `\r` `\b` `\f`, `\u00XX` for the
remaining control characters, every other character unchanged (the
`ensure_ascii=False` treatment; on the ASCII fragment it coincides with
the default). -/
def jsonEscapeChar (c : Char) : List Char :=
  if c = '"' then ['\\', '"']
  else if c = '\\' then ['\\', '\\']
  else if c = '\n' then ['\\', 'n']
  else if c = '\t' then ['\\', 't']
  else if c = '\r' then ['\\', 'r']
  else if c = Char.ofNat 8 then ['\\', 'b']
  else if c = Char.ofNat 12 then ['\\', 'f']
  else if c.toNat < 32 then
    ['\\', 'u', '0', '0', hexChar (c.toNat / 16), hexChar (c.toNat % 16)]
  else [c]

/-- A JSON string literal: quote, escaped characters, quote. -/
def quoteL (s : String) : List Char :=
  '"' :: ((s.toList.map jsonEscapeChar).flatten ++ ['"'])

mutual
/-- Model of Python's `json.dumps` (default separators `", "` and `": "`),
producing the character list of the serialization. -/
def dumpL : JVal → List Char
  | .null => "null".toList
  | .bool true => "true".toList
  | .bool false => "false".toList
  | .num i => intChars i
  | .str s => quoteL s
  | .arr es => '[' :: (dumpArr es ++ [']'])
  | .obj ms => '\x7b' :: (dumpObj ms ++ ['\x7d'])

/-- Array elements joined by `", "`. -/
def dumpArr : List JVal → List Char
  | [] => []
  | [e] => dumpL e
  | e :: es => dumpL e ++ ',' :: ' ' :: dumpArr es

/-- Object members `"key": value` joined by `", "`. -/
def dumpObj : List (String × JVal) → List Char
  | [] => []
  | [(k, v)] => quoteL k ++ ':' :: ' ' :: dumpL v
  | (k, v) :: ms => quoteL k ++ ':' :: ' ' :: dumpL v ++ ',' :: ' ' :: dumpObj ms
end

/-- `json.dumps` as a `String`. -/
def dumps (v : JVal) : String := String.mk (dumpL v)

/-- One conversation turn, as the source's pydantic `Message` model:
a role and textual content. Its `__str__` is `"role: content"`. -/
structure Message where
  role : String
  content : String
deriving DecidableEq, Repr

/-- `Message.__str__`: `f"\x7bself.role\x7d: \x7bself.content\x7d"`. -/
def Message.toStr (m : Message) : String := m.role ++ ": " ++ m.content

/-- Python whitespace for `str.strip()`. -/
def isPySpace (c : Char) : Bool :=
  c = ' ' || c = '\t' || c = '\n' || c = '\r' || c = Char.ofNat 11 || c = Char.ofNat 12

/-- Model of Python's `str.strip()`: drop leading and trailing whitespace. -/
def pyStrip (cs : List Char) : List Char :=
  ((cs.dropWhile isPySpace).reverse.dropWhile isPySpace).reverse

/-- Model of Python's `y.split(">> ")`, specialized to the source's literal
turn delimiter: split on each non-overlapping occurrence of `'>' '>' ' '`,
left to right; the accumulator holds the current piece reversed. -/
def splitTurnsAux : List Char → List Char → List (List Char)
  | acc, '>' :: '>' :: ' ' :: rest => acc.reverse :: splitTurnsAux [] rest
  | acc, c :: rest => splitTurnsAux (c :: acc) rest
  | acc, [] => [acc.reverse]

/-- `y.split(">> ")` on a character list. -/
def splitTurns (cs : List Char) : List (List Char) := splitTurnsAux [] cs

/-- Split a character list into its `'\n'`-separated lines. -/
def splitLinesAux : List Char → List Char → List (List Char)
  | acc, '\n' :: rest => acc.reverse :: splitLinesAux [] rest
  | acc, c :: rest => splitLinesAux (c :: acc) rest
  | acc, [] => [acc.reverse]

/-- The lines of a character list. -/
def splitLines (cs : List Char) : List (List Char) := splitLinesAux [] cs

/-- First match in an association list of string bindings (Python keyword
arguments / dict lookup on the fragment where values are strings). -/
def lookupBind : List (String × String) → String → Option String
  | [], _ => none
  | (k, v) :: rest, name => if k = name then some v else lookupBind rest name

/-- First match in a string-keyed `JVal` mapping (Python `dict` access). -/
def lookupField : List (String × JVal) → String → Option JVal
  | [], _ => none
  | (k, v) :: rest, name => if k = name then some v else lookupField rest name

/-- The key and value of the first `": "` occurrence in a line, if any. -/
def splitColon : List Char → List Char → Option (List Char × List Char)
  | acc, ':' :: ' ' :: rest => some (acc.reverse, rest)
  | acc, c :: rest => splitColon (c :: acc) rest
  | _, [] => none

/-- YAML plain-scalar typing on the fragment exercised here: empty, `~` and
`null` load as null, `true`/`false` as booleans, digit runs as integers,
anything else as the string itself (whitespace-stripped). -/
def yamlScalarVal (cs : List Char) : JVal :=
  let v := pyStrip cs
  if v = [] then .null
  else if v = "true".toList || v = "True".toList then .bool true
  else if v = "false".toList || v = "False".toList then .bool false
  else if v = "null".toList || v = ['~'] then .null
  else if v.all Char.isDigit then
    .num ((v.foldl (fun a c => a * 10 + (c.toNat - 48)) 0 : Nat) : Int)
  else .str (String.mk v)

/-- One line of a top-level block mapping: `key: value`, or `key:` with an
empty (null) value. A line of neither shape is not a mapping line. -/
def parseMapLine (line : List Char) : Option (String × JVal) :=
  match splitColon [] line with
  | some (k, v) => some (String.mk (pyStrip k), yamlScalarVal v)
  | none =>
    match line.getLast? with
    | some ':' => some (String.mk (pyStrip line.dropLast), .null)
    | _ => none

/-- Model of PyYAML's `yaml.safe_load` on the fragment this repository's
prompt segments exercise: a document whose lines are all `key: value`
pairs loads as a string-keyed mapping in source order; a document whose
first character is `>` opens a folded block scalar, whose header may hold
only a chomping indicator (`+`/`-`), an indentation indicator (`1`-`9`)
or a following blank — any other character (such as a second `>`) is the
scanner error PyYAML reports as "expected chomping or indentation
indicators"; any other document is a plain scalar. -/
def yamlSafeLoad (s : String) : Except String JVal :=
  match s.toList with
  | [] => .ok .null
  | '>' :: rest =>
    match rest with
    | [] => .ok (.str "")
    | c :: _ =>
      if c = '+' || c = '-' || ('1' ≤ c && c ≤ '9') || c = ' ' || c = '\t' || c = '\n'
      then .ok (.str (String.mk (pyStrip rest)))
      else .error ("while scanning a block scalar, expected chomping or "
        ++ "indentation indicators, but found " ++ String.mk [c])
  | cs =>
    match (splitLines cs).mapM parseMapLine with
    | some kvs => .ok (.obj kvs)
    | none => .ok (yamlScalarVal cs)

/-- The call-path exceptions of the source, each carrying what Python's
`str(e)` renders for it. `KeyError` is special: `str` of a `KeyError`
is the missing key in repr quotes. -/
inductive PyErr where
  | keyError (name : String)
  | valueError (msg : String)
  | yamlErr (msg : String)
  | attrErr (msg : String)
  | indexErr (msg : String)
  | castErr (msg : String)
  | gatewayErr (msg : String)
  | enriched (msg : String)
deriving DecidableEq, Repr

/-- Python's `str(e)` for each modelled exception. -/
def PyErr.str : PyErr → String
  | .keyError n => "'" ++ n ++ "'"
  | .valueError m => m
  | .yamlErr m => m
  | .attrErr m => m
  | .indexErr m => m
  | .castErr m => m
  | .gatewayErr m => m
  | .enriched m => m

/-- A token of a format string: a literal character, or a named
replacement field. -/
inductive FmtTok where
  | lit (c : Char)
  | field (name : String)

/-- Tokenize a format string as Python's `str.format` parses it: plain
named fields `\x7bname\x7d`, the escapes `\x7b\x7b` and `\x7d\x7d`, a lone
brace a `ValueError`. The first argument is `none` outside a field and
`some acc` inside one (the name's characters so far, reversed). -/
def scanFmt : Option (List Char) → List Char → Except PyErr (List FmtTok)
  | none, '{' :: '{' :: rest => (scanFmt none rest).map (fun ts => .lit '{' :: ts)
  | none, '}' :: '}' :: rest => (scanFmt none rest).map (fun ts => .lit '}' :: ts)
  | none, '{' :: rest => scanFmt (some []) rest
  | none, '}' :: _ => .error (.valueError "Single '\x7d' encountered in format string")
  | none, c :: rest => (scanFmt none rest).map (fun ts => .lit c :: ts)
  | none, [] => .ok []
  | some acc, '}' :: rest => (scanFmt none rest).map (fun ts => .field (String.mk acc.reverse) :: ts)
  | some acc, c :: rest => scanFmt (some (c :: acc)) rest
  | some _, [] => .error (.valueError "Single '\x7b' encountered in format string")

/-- Substitute the bindings into the token stream, left to right, the
output accumulated reversed; a field whose name is missing from the
bindings raises `KeyError(name)`. -/
def fmtRender (binds : List (String × String)) : List Char → List FmtTok → Except PyErr (List Char)
  | acc, [] => .ok acc.reverse
  | acc, .lit c :: ts => fmtRender binds (c :: acc) ts
  | acc, .field name :: ts =>
    match lookupBind binds name with
    | some v => fmtRender binds (v.toList.reverse ++ acc) ts
    | none => .error (.keyError name)

/-- Model of Python's `str.format(**inputs)` on the fragment the source's
literal templates exercise (format specs, conversions and positional
fields are outside the fragment; syntax errors surface before missing-key
errors, which no template of this development makes observable). -/
def pyFormat (binds : List (String × String)) (s : String) : Except PyErr String :=
  match scanFmt none s.toList with
  | .error e => .error e
  | .ok ts => (fmtRender binds [] ts).map String.mk

/-- A jinja variable reference's body: the characters up to `\x7d\x7d`. -/
def jinjaVarEnd : List Char → List Char → Option (List Char × List Char)
  | acc, '}' :: '}' :: rest => some (acc.reverse, rest)
  | acc, c :: rest => jinjaVarEnd (c :: acc) rest
  | _, [] => none

/-- Model of jinja2 `Template(...).render(**inputs)` on the fragment the
source's jinja templates exercise: variable substitution `\x7b\x7b name \x7d\x7d`
with string bindings, and jinja2's default `Undefined` semantics — a
variable missing from the bindings renders as the empty string, with no
error. `keep_trailing_newline=True` means no character is dropped. -/
def jinjaRenderAux (binds : List (String × String)) : Nat → List Char → List Char
  | 0, cs => cs
  | _ + 1, [] => []
  | f + 1, '{' :: '{' :: rest =>
    match jinjaVarEnd [] rest with
    | some (name, rest') =>
      ((lookupBind binds (String.mk (pyStrip name))).getD "").toList
        ++ jinjaRenderAux binds f rest'
    | none => '{' :: '{' :: rest
  | f + 1, c :: rest => c :: jinjaRenderAux binds f rest

/-- jinja rendering on strings. -/
def jinjaRender (binds : List (String × String)) (s : String) : String :=
  String.mk (jinjaRenderAux binds (s.toList.length + 1) s.toList)

/-- `template.render(**inputs)` when jinja mode is on, else
`doc.format(**inputs)` — the rendering step of `_Pr.build_prompt`. -/
def renderDoc (jinja : Bool) (doc : String) (inputs : List (String × String)) :
    Except PyErr String :=
  if jinja then .ok (jinjaRender inputs doc) else pyFormat inputs doc

/-- The loop header of `_Pr.build_prompt`: split the rendered text on
`">> "`, strip each piece, keep the non-empty ones. -/
def segmentsOf (y : String) : List String :=
  (((splitTurns y.toList).map pyStrip).filter (· ≠ [])).map String.mk

/-- The `yaml.safe_load` loop of `_Pr.build_prompt`: load each kept segment
in order; a `ParserError`/`ScannerError` on any segment raises the
source's `Exception` carrying the whole rendered text `y` and the
offending segment. -/
def loadSegs (load : String → Except String JVal) (y : String) :
    List String → Except PyErr (List JVal)
  | [] => .ok []
  | line :: rest =>
    match load line with
    | .error _ =>
      .error (.yamlErr ("\n\nFailed to parse YAML: \n\n" ++ y ++ "\n\n" ++ line ++ "\n\n"))
    | .ok v => (loadSegs load y rest).map (fun vs => v :: vs)

/-- The Python type name `repr` uses in attribute errors. -/
def pyTypeName : JVal → String
  | .null => "NoneType"
  | .bool _ => "bool"
  | .num _ => "int"
  | .str _ => "str"
  | .arr _ => "list"
  | .obj _ => "dict"

/-- The message comprehension of `_Pr.build_prompt` on one loaded value:
`Message(role=list(item.keys())[0], content=json.dumps(list(item.values())[0]))`.
A non-mapping has no `.keys` (`AttributeError`); an empty mapping makes
`list(...)[0]` an `IndexError`; otherwise the mapping's first key/value
pair becomes the turn. -/
def toMessage : JVal → Except PyErr Message
  | .obj ((k, v) :: _) => .ok ⟨k, dumps v⟩
  | .obj [] => .error (.indexErr "list index out of range")
  | v => .error (.attrErr ("'" ++ pyTypeName v ++ "' object has no attribute 'keys'"))

/-- The message comprehension over the loaded values: first shape error
wins, order preserved. -/
def buildMsgs : List JVal → Except PyErr (List Message)
  | [] => .ok []
  | v :: vs =>
    match toMessage v with
    | .error e => .error e
    | .ok m => (buildMsgs vs).map (fun ms => m :: ms)

/-- `_Pr.build_prompt` from the rendered text on: segmentation, YAML
loading (all segments first), then the `Message` comprehension. -/
def parseRendered (load : String → Except String JVal) (y : String) :
    Except PyErr (List Message) :=
  match loadSegs load y (segmentsOf y) with
  | .error e => .error e
  | .ok vs => buildMsgs vs

/-- `_Pr.build_prompt(**inputs)`: render the docstring template, then parse
the rendered text into messages. `load` is the YAML loader (instantiated
with `yamlSafeLoad`; kept as a parameter so theorems can quantify over
loader behaviour). -/
def build_prompt (load : String → Except String JVal) (jinja : Bool)
    (doc : String) (inputs : List (String × String)) : Except PyErr (List Message) :=
  match renderDoc jinja doc inputs with
  | .error e => .error e
  | .ok y => parseRendered load y

/-- `_Pr.build_string(**inputs)`: the debug rendering —
`"\n".join(map(str, self.build_prompt(**inputs)))`. -/
def build_string (load : String → Except String JVal) (jinja : Bool)
    (doc : String) (inputs : List (String × String)) : Except PyErr String :=
  (build_prompt load jinja doc inputs).map
    (fun msgs => String.intercalate "\n" (msgs.map Message.toStr))

/-- The body of `_Pr.__call__` for one attempt: build the prompt (a failure
here propagates bare), call the gateway and cast the result (a failure
there is re-raised as `Exception(str(e) + "\n\nPrompt:\n\n" +
self.build_string(**inputs))`). `gw` maps the gateway-invocation index and
the messages to the raw text; `n` counts gateway invocations so far and is
returned updated. -/
def attemptOnce {ρ : Type} (load : String → Except String JVal) (jinja : Bool)
    (doc : String) (inputs : List (String × String))
    (gw : Nat → List Message → Except PyErr String)
    (cast : String → Except PyErr ρ) (n : Nat) : Except PyErr ρ × Nat :=
  match build_prompt load jinja doc inputs with
  | .error e => (.error e, n)
  | .ok msgs =>
    let r : Except PyErr ρ :=
      match gw n msgs with
      | .error e => .error e
      | .ok txt => cast txt
    match r with
    | .ok v => (.ok v, n + 1)
    | .error e =>
      match build_string load jinja doc inputs with
      | .ok p => (.error (.enriched (e.str ++ "\n\nPrompt:\n\n" ++ p)), n + 1)
      | .error e2 => (.error e2, n + 1)

/-- The `retry(tries=3, delay=1)` decorator's loop: run the step; on
success return; on failure, if attempts remain, sleep the fixed delay
(recorded in `sleeps`, one entry per sleep, each of 1 second) and retry,
else re-raise the last failure. -/
def retryLoop {ρ : Type} (step : Nat → Except PyErr ρ × Nat) :
    Nat → Nat → List Nat → Except PyErr ρ × Nat × List Nat
  | 0, n, sleeps => (.error (.valueError "no tries"), n, sleeps)
  | 1, n, sleeps =>
    let (r, n') := step n
    (r, n', sleeps)
  | t + 2, n, sleeps =>
    match step n with
    | (.ok v, n') => (.ok v, n', sleeps)
    | (.error _, n') => retryLoop step (t + 1) n' (sleeps ++ [1])

/-- `_Pr.__call__(**inputs)` under `@retry(tries=3, delay=1)`: up to three
attempts of the whole build+call+cast body. Returns the final result, the
total number of gateway invocations, and the list of sleep delays. -/
def pr_call {ρ : Type} (load : String → Except String JVal) (jinja : Bool)
    (doc : String) (inputs : List (String × String))
    (gw : Nat → List Message → Except PyErr String)
    (cast : String → Except PyErr ρ) : Except PyErr ρ × Nat × List Nat :=
  retryLoop (attemptOnce load jinja doc inputs gw cast) 3 0 []

/-- The configured gateway choice (`OpenAI(model_name)` is the only
recognized provider in the source). -/
inductive LLMChoice where
  | openai (model_name : String)
deriving DecidableEq, Repr

/-- A constructed `Prompter` object. `llm = none` models the state in which
`Prompter.__init__` never assigned `self.llm` (its body only assigns it
under `if llm == "openai"` and has no else branch, so construction never
raises). -/
structure PrompterObj where
  jinja : Bool
  llm : Option LLMChoice
deriving DecidableEq, Repr

/-- `Prompter.__init__(llm, model_name, jinja)`: a total constructor — an
unrecognized provider name just leaves the `llm` attribute unset. -/
def Prompter.init (llm : String) (model_name : String) (jinja : Bool) : PrompterObj :=
  ⟨jinja, if llm = "openai" then some (.openai model_name) else none⟩

/-- `Prompter.__call__(function)`, the decoration step: it reads `self.llm`
to build the `_Pr` pipeline, which raises `AttributeError` when
construction left the attribute unset. -/
def Prompter.decorate (p : PrompterObj) : Except PyErr (Bool × LLMChoice) :=
  match p.llm with
  | some l => .ok (p.jinja, l)
  | none => .error (.attrErr "'Prompter' object has no attribute 'llm'")


/-! ## A model of `json.loads` and of pydantic record models

`PydanticParser.cast_result` is `self.return_cls.parse_raw(result)`:
`json.loads` on the text, then field validation against the model's
schema. The deserializer below models `json.loads` on the fragment
pydantic record models with scalar fields exercise (objects, strings with
escapes, integers, booleans, null; integer literals without float or
exponent forms); the validator models pydantic v1 field extraction with
exact-typed fields (no coercions). -/

/-- JSON whitespace skipping, as `json.loads` does between tokens. -/
def skipJWs : List Char → List Char
  | c :: cs => if c = ' ' || c = '\t' || c = '\n' || c = '\r' then skipJWs cs else c :: cs
  | [] => []

/-- The value of one hexadecimal digit character. -/
def hexVal (c : Char) : Option Nat :=
  if '0' ≤ c && c ≤ '9' then some (c.toNat - 48)
  else if 'a' ≤ c && c ≤ 'f' then some (c.toNat - 87)
  else if 'A' ≤ c && c ≤ 'F' then some (c.toNat - 55)
  else none

/-- The character a short JSON escape denotes. -/
def unescapeShort (e : Char) : Option Char :=
  if e = '"' || e = '\\' || e = '/' then some e
  else if e = 'n' then some '\n'
  else if e = 't' then some '\t'
  else if e = 'r' then some '\r'
  else if e = 'b' then some (Char.ofNat 8)
  else if e = 'f' then some (Char.ofNat 12)
  else none

/-- A JSON string body after its opening quote: characters and escapes up
to the closing quote; `acc` holds the parsed characters reversed. -/
def jStrBody : List Char → List Char → Option (String × List Char)
  | acc, '"' :: rest => some (String.mk acc.reverse, rest)
  | acc, '\\' :: 'u' :: a :: b :: c :: d :: rest =>
    match hexVal a, hexVal b, hexVal c, hexVal d with
    | some va, some vb, some vc, some vd =>
      jStrBody (Char.ofNat (((va * 16 + vb) * 16 + vc) * 16 + vd) :: acc) rest
    | _, _, _, _ => none
  | acc, '\\' :: e :: rest =>
    match unescapeShort e with
    | some ch => jStrBody (ch :: acc) rest
    | none => none
  | acc, c :: rest => jStrBody (c :: acc) rest
  | _, [] => none

/-- The longest leading run of decimal digits, and the remainder. -/
def takeDigs : List Char → List Char × List Char
  | c :: cs =>
    if c.isDigit then
      let (ds, r) := takeDigs cs
      (c :: ds, r)
    else ([], c :: cs)
  | [] => ([], [])

/-- Whether a character list does not begin with a digit (so it cannot
extend a rendered number). -/
def noDigitHead : List Char → Bool
  | [] => true
  | c :: _ => !c.isDigit

/-- The natural number a digit run denotes. -/
def digsToNat (ds : List Char) : Nat :=
  ds.foldl (fun a c => a * 10 + (c.toNat - 48)) 0

/-- A JSON integer literal: optional minus sign, then a digit run. -/
def jNum : List Char → Option (Int × List Char)
  | '-' :: cs =>
    match takeDigs cs with
    | ([], _) => none
    | (ds, r) => some (-(digsToNat ds : Int), r)
  | cs =>
    match takeDigs cs with
    | ([], _) => none
    | (ds, r) => some ((digsToNat ds : Int), r)

mutual
/-- One JSON value (fuel-bounded recursion; the wrapper supplies fuel
above the input length, which the fragment's nesting never exhausts). -/
def jVal : Nat → List Char → Option (JVal × List Char)
  | 0, _ => none
  | f + 1, cs =>
    match skipJWs cs with
    | 'n' :: 'u' :: 'l' :: 'l' :: r => some (.null, r)
    | 't' :: 'r' :: 'u' :: 'e' :: r => some (.bool true, r)
    | 'f' :: 'a' :: 'l' :: 's' :: 'e' :: r => some (.bool false, r)
    | '"' :: r => (jStrBody [] r).map (fun p => (.str p.1, p.2))
    | '[' :: r =>
      match skipJWs r with
      | ']' :: r2 => some (.arr [], r2)
      | r2 => (jItems f r2).map (fun p => (.arr p.1, p.2))
    | '{' :: r =>
      match skipJWs r with
      | '}' :: r2 => some (.obj [], r2)
      | r2 => (jMembers f r2).map (fun p => (.obj p.1, p.2))
    | cs2 => (jNum cs2).map (fun p => (.num p.1, p.2))

/-- One or more comma-separated array elements, up to the closing `]`. -/
def jItems : Nat → List Char → Option (List JVal × List Char)
  | 0, _ => none
  | f + 1, cs =>
    match jVal f cs with
    | none => none
    | some (v, r) =>
      match skipJWs r with
      | ',' :: r2 => (jItems f r2).map (fun p => (v :: p.1, p.2))
      | ']' :: r2 => some ([v], r2)
      | _ => none

/-- One or more `"key": value` members, up to the closing `}`. -/
def jMembers : Nat → List Char → Option (List (String × JVal) × List Char)
  | 0, _ => none
  | f + 1, cs =>
    match skipJWs cs with
    | '"' :: r =>
      match jStrBody [] r with
      | none => none
      | some (k, r1) =>
        match skipJWs r1 with
        | ':' :: r2 =>
          match jVal f r2 with
          | none => none
          | some (v, r3) =>
            match skipJWs r3 with
            | ',' :: r4 => (jMembers f r4).map (fun p => ((k, v) :: p.1, p.2))
            | '}' :: r4 => some ([(k, v)], r4)
            | _ => none
        | _ => none
    | _ => none
end

/-- Model of `json.loads`: parse one value, reject trailing characters. -/
def loads (s : String) : Option JVal :=
  match jVal (s.toList.length + 1) s.toList with
  | some (v, r) => if skipJWs r = [] then some v else none
  | none => none

/-- A pydantic record-model field type (the scalar fragment). -/
inductive FType where
  | fint
  | fstr
  | fbool
deriving DecidableEq, Repr

/-- A field value of a record-model instance. -/
inductive FVal where
  | vint (i : Int)
  | vstr (s : String)
  | vbool (b : Bool)
deriving DecidableEq, Repr

/-- The JSON value a field value serializes to. -/
def FVal.toJVal : FVal → JVal
  | .vint i => .num i
  | .vstr s => .str s
  | .vbool b => .bool b

/-- Whether a field value has the declared field type. -/
def FVal.hasType : FVal → FType → Bool
  | .vint _, .fint => true
  | .vstr _, .fstr => true
  | .vbool _, .fbool => true
  | _, _ => false

/-- Whether an instance's fields match a model schema pointwise: same
field names in the same order, each value of the declared type. -/
def instMatches : List (String × FVal) → List (String × FType) → Bool
  | [], [] => true
  | (k, v) :: is2, (k2, t) :: ts => k == k2 && v.hasType t && instMatches is2 ts
  | _, _ => false

/-- Pydantic field validation of one parsed JSON value against a declared
field type (exact-typed fields; the fragment has no coercions). -/
def castField : JVal → FType → Option FVal
  | .num i, .fint => some (.vint i)
  | .str s, .fstr => some (.vstr s)
  | .bool b, .fbool => some (.vbool b)
  | _, _ => none

/-- Validate a parsed JSON object against a model schema: look each
declared field up by name and check its type. -/
def validateFields (fields : List (String × JVal)) :
    List (String × FType) → Option (List (String × FVal))
  | [] => some []
  | (k, t) :: ts =>
    match lookupField fields k with
    | none => none
    | some jv =>
      match castField jv t with
      | none => none
      | some fv => (validateFields fields ts).map (fun rest => (k, fv) :: rest)

/-- Pydantic `BaseModel.json()`: the instance serialized through
`json.dumps` as an object in field order. -/
def modelJson (inst : List (String × FVal)) : String :=
  dumps (.obj (inst.map (fun p => (p.1, p.2.toJVal))))

/-- Pydantic `parse_raw`: `json.loads` then field validation; anything but
a JSON object, or a missing or ill-typed field, fails. -/
def parse_raw (schema : List (String × FType)) (text : String) :
    Option (List (String × FVal)) :=
  match loads text with
  | some (.obj fields) => validateFields fields schema
  | _ => none

/-- `PydanticParser.cast_result(result)`: `parse_raw` on the text, a
`ValidationError` re-raised as the source's `Exception` wrapping the
offending text. -/
def cast_result (schema : List (String × FType)) (text : String) :
    Except PyErr (List (String × FVal)) :=
  match parse_raw schema text with
  | some inst => .ok inst
  | none => .error (.castErr ("\n\nFailed to validate JSON: \n\n" ++ text ++ "\n\n"))

/-- A declared return type in the structured-schema (pydantic) variant:
what `return_cls.schema()` yields, as a JSON object's fields. Pydantic
always emits a `title` key for a model class. -/
structure ReturnCls where
  schema : List (String × JVal)

/-- The result shape of `PydanticParser.pydantic_schema`. -/
structure LLMScheme where
  name : JVal
  description : JVal
  parameters : JVal

/-- `PydanticParser.pydantic_schema(schema_def)`: name is
`schema_def["title"]` (a `KeyError` if absent), description is
`schema_def.get("description", "")`, parameters the full schema. -/
def pydantic_schema (schema_def : List (String × JVal)) : Except PyErr LLMScheme :=
  match lookupField schema_def "title" with
  | some t =>
    .ok ⟨t, (lookupField schema_def "description").getD (.str ""), .obj schema_def⟩
  | none => .error (.keyError "title")

/-- `PydanticParser.llm_schema()`: `pydantic_schema(self.return_cls.schema())`. -/
def llm_schema (rc : ReturnCls) : Except PyErr LLMScheme :=
  pydantic_schema rc.schema

/-! ## Shared lemmas about the pipeline -/

/-- A successful `build_prompt` fixes `build_string` to the newline-joined
`"role: content"` forms of its messages. -/
theorem build_string_of_ok {load jinja doc inputs msgs}
    (h : build_prompt load jinja doc inputs = .ok msgs) :
    build_string load jinja doc inputs
      = .ok (String.intercalate "\n" (msgs.map Message.toStr)) := by
  simp [build_string, h, Except.map]

/-- A failing `build_prompt` makes the attempt fail with that error, bare,
without invoking the gateway. -/
theorem attemptOnce_of_bp_err {ρ} {load jinja doc inputs gw e n}
    {cast : String → Except PyErr ρ}
    (h : build_prompt load jinja doc inputs = .error e) :
    attemptOnce load jinja doc inputs gw cast n = (.error e, n) := by
  simp [attemptOnce, h]

/-- When the prompt builds and the gateway fails, the attempt consumes one
gateway invocation and fails with the enriched error. -/
theorem attemptOnce_of_gw_err {ρ} {load jinja doc inputs gw msgs e n}
    {cast : String → Except PyErr ρ}
    (hbp : build_prompt load jinja doc inputs = .ok msgs)
    (hgw : gw n msgs = .error e) :
    attemptOnce load jinja doc inputs gw cast n
      = (.error (.enriched (e.str ++ "\n\nPrompt:\n\n"
          ++ String.intercalate "\n" (msgs.map Message.toStr))), n + 1) := by
  simp [attemptOnce, hbp, hgw, build_string_of_ok hbp]

/-- Three failing attempts: the retry loop surfaces the third failure,
after two recorded sleeps. -/
theorem retryLoop3_fail {ρ} (step : Nat → Except PyErr ρ × Nat) (e0 e1 e2 : PyErr)
    (n1 n2 n3 : Nat)
    (h0 : step 0 = (.error e0, n1)) (h1 : step n1 = (.error e1, n2))
    (h2 : step n2 = (.error e2, n3)) :
    retryLoop step 3 0 [] = (.error e2, n3, [1, 1]) := by
  have u1 : retryLoop step 3 0 [] = retryLoop step 2 n1 [1] := by
    show (match step 0 with
      | (.ok v, n') => ((.ok v : Except PyErr ρ), n', ([] : List Nat))
      | (.error _, n') => retryLoop step 2 n' ([] ++ [1])) = _
    rw [h0]
    rfl
  have u2 : retryLoop step 2 n1 [1] = retryLoop step 1 n2 [1, 1] := by
    show (match step n1 with
      | (.ok v, n') => ((.ok v : Except PyErr ρ), n', ([1] : List Nat))
      | (.error _, n') => retryLoop step 1 n' ([1] ++ [1])) = _
    rw [h1]
    rfl
  have u3 : retryLoop step 1 n2 [1, 1] = (.error e2, n3, [1, 1]) := by
    show ((step n2).1, (step n2).2, ([1, 1] : List Nat)) = _
    rw [h2]
  rw [u1, u2, u3]

/-- Every error the retry loop surfaces is an error of some attempt. -/
theorem retryLoop_err_prop {ρ} (step : Nat → Except PyErr ρ × Nat)
    (P : PyErr → Prop)
    (hstep : ∀ n r n', step n = (.error r, n') → P r) :
    ∀ t n sl r m sl', 1 ≤ t → retryLoop step t n sl = (.error r, m, sl') → P r := by
  intro t
  induction t using Nat.strong_induction_on with
  | _ t ih =>
    intro n sl r m sl' ht hloop
    match t, ht with
    | 1, _ =>
      have hu : retryLoop step 1 n sl = ((step n).1, (step n).2, sl) := rfl
      rw [hu] at hloop
      exact hstep n r m (by
        have h1 : (step n).1 = .error r := congrArg Prod.fst hloop
        have h2 : (step n).2 = m := by
          have := congrArg Prod.snd hloop
          exact congrArg Prod.fst this
        calc step n = ((step n).1, (step n).2) := rfl
          _ = (.error r, m) := by rw [h1, h2])
    | t' + 2, _ =>
      have hu : retryLoop step (t' + 2) n sl
          = (match step n with
             | (.ok v, n') => ((.ok v : Except PyErr ρ), n', sl)
             | (.error _, n') => retryLoop step (t' + 1) n' (sl ++ [1])) := rfl
      rw [hu] at hloop
      rcases hsn : step n with ⟨r0, n0⟩
      rw [hsn] at hloop
      cases r0 with
      | ok v => simp at hloop
      | error e0 =>
        exact ih (t' + 1) (by omega) n0 (sl ++ [1]) r m sl' (by omega) hloop

/-! ## C3 — unknown provider name at construction -/

/-- C3 (counterexample): constructing a `Prompter` with the unrecognized
provider name `"anthropic"` does not fail — `Prompter.__init__` is total
and merely leaves the gateway unset (`llm = none`); the failure only
appears later, when the object is used to decorate a function, as an
`AttributeError`. This refutes the claim that an unrecognized provider
name fails at construction time with `ConfigurationError`. -/
theorem c3_construction_never_fails :
    Prompter.init "anthropic" "claude-3" false = ⟨false, none⟩ ∧
    Prompter.decorate (Prompter.init "anthropic" "claude-3" false)
      = .error (.attrErr "'Prompter' object has no attribute 'llm'") :=
  ⟨rfl, rfl⟩

/-- C3 (amended): for every provider-name string other than `"openai"`,
`Prompter.__init__` succeeds and leaves the gateway attribute unset; the
failure surfaces only when the constructed object decorates a function,
as an `AttributeError` on the missing `llm` attribute. -/
theorem c3_unknown_provider_amended (name model_name : String) (jinja : Bool)
    (h : name ≠ "openai") :
    Prompter.init name model_name jinja = ⟨jinja, none⟩ ∧
    Prompter.decorate (Prompter.init name model_name jinja)
      = .error (.attrErr "'Prompter' object has no attribute 'llm'") := by
  constructor
  · simp [Prompter.init, h]
  · simp [Prompter.init, Prompter.decorate, h]

/-- C3 witness: the amended claim at the concrete provider name `"cohere"`. -/
theorem c3_unknown_provider_witness :
    Prompter.init "cohere" "command" true = ⟨true, none⟩ ∧
    Prompter.decorate (Prompter.init "cohere" "command" true)
      = .error (.attrErr "'Prompter' object has no attribute 'llm'") :=
  c3_unknown_provider_amended "cohere" "command" true (by decide)

/-! ## C5 — the two-message scenario -/

/-- C5 (counterexample): the claim's template `">>system: hello\n>>user: \x7bq\x7d"`
contains no occurrence of the delimiter `">> "` (there is no space after
`">>"`), so the whole rendered text is a single segment; that segment
starts a YAML folded block scalar whose header is invalid (a second `>`),
so compilation fails with the `Failed to parse YAML` error instead of
producing the claimed two messages. -/
theorem c5_scenario_fails :
    build_prompt yamlSafeLoad false ">>system: hello\n>>user: \x7bq\x7d" [("q", "hi")]
      = .error (.yamlErr ("\n\nFailed to parse YAML: \n\n>>system: hello\n>>user: hi"
          ++ "\n\n>>system: hello\n>>user: hi\n\n")) :=
  rfl

/-- C5 (amended): compiling the claim's template fails with the YAML parse
error (no `">> "` delimiter occurs in it, and the whole text is not valid
YAML); with the delimiter written as the source expects — `">> "` with a
space — the same bindings produce exactly two messages in order, with the
JSON-serialized (hence quoted) contents `"\"hello\""` and `"\"hi\""`. -/
theorem c5_scenario_amended :
    build_prompt yamlSafeLoad false ">>system: hello\n>>user: \x7bq\x7d" [("q", "hi")]
      = .error (.yamlErr ("\n\nFailed to parse YAML: \n\n>>system: hello\n>>user: hi"
          ++ "\n\n>>system: hello\n>>user: hi\n\n")) ∧
    build_prompt yamlSafeLoad false ">> system: hello\n>> user: \x7bq\x7d" [("q", "hi")]
      = .ok [⟨"system", "\"hello\""⟩, ⟨"user", "\"hi\""⟩] :=
  ⟨rfl, rfl⟩

/-! ## C2 — missing placeholder -/

/-- C2 (counterexample): in jinja mode a missing placeholder does NOT fail
— jinja2's default `Undefined` renders as the empty string — so the
template `">> user: \x7b\x7b q \x7d\x7d"` called without `q` compiles to a message
(whose YAML value is null) and the gateway IS invoked: with a succeeding
gateway stub the whole call succeeds after exactly one gateway
invocation. This refutes the claim for the templated (jinja) mode. -/
theorem c2_jinja_missing_proceeds :
    build_prompt yamlSafeLoad true ">> user: \x7b\x7b q \x7d\x7d" [] = .ok [⟨"user", "null"⟩] ∧
    pr_call yamlSafeLoad true ">> user: \x7b\x7b q \x7d\x7d" []
      (fun _ _ => .ok "\"ok\"") (fun s => (.ok s : Except PyErr String))
      = (.ok "\"ok\"", 1, []) :=
  ⟨rfl, rfl⟩

/-- C2 (amended): in literal mode, a template referencing `\x7bq\x7d` called
with bindings lacking `q` fails during prompt compilation with the
`KeyError` (the spec's TemplateError) — for every gateway and cast, the
pipeline retries the compilation failure three times, never invokes the
gateway (invocation count 0), and surfaces the bare `KeyError`. In jinja
mode (see the counterexample) the missing placeholder instead renders as
empty and compilation proceeds. -/
theorem c2_missing_placeholder_amended {ρ : Type} (inputs : List (String × String))
    (h : lookupBind inputs "q" = none)
    (gw : Nat → List Message → Except PyErr String) (cast : String → Except PyErr ρ) :
    build_prompt yamlSafeLoad false ">> user: \x7bq\x7d" inputs = .error (.keyError "q") ∧
    pr_call yamlSafeLoad false ">> user: \x7bq\x7d" inputs gw cast
      = (.error (.keyError "q"), 0, [1, 1]) := by
  have hscan : scanFmt none ">> user: \x7bq\x7d".toList
      = .ok [.lit '>', .lit '>', .lit ' ', .lit 'u', .lit 's', .lit 'e', .lit 'r',
             .lit ':', .lit ' ', .field "q"] := rfl
  have hren : renderDoc false ">> user: \x7bq\x7d" inputs = .error (.keyError "q") := by
    simp only [renderDoc, pyFormat, hscan, Bool.false_eq_true, if_false]
    simp only [fmtRender, h]
    simp [Except.map]
  have hbp : build_prompt yamlSafeLoad false ">> user: \x7bq\x7d" inputs
      = .error (.keyError "q") := by
    simp [build_prompt, hren]
  exact ⟨hbp, retryLoop3_fail _ _ _ _ 0 0 0
    (attemptOnce_of_bp_err hbp) (attemptOnce_of_bp_err hbp) (attemptOnce_of_bp_err hbp)⟩

/-- C2 witness: the amended claim at concrete bindings lacking `q`, with a
concrete gateway stub: the failure is the bare `KeyError` and the gateway
count stays 0. -/
theorem c2_missing_placeholder_witness :
    build_prompt yamlSafeLoad false ">> user: \x7bq\x7d" [("other", "x")]
      = .error (.keyError "q") ∧
    pr_call yamlSafeLoad false ">> user: \x7bq\x7d" [("other", "x")]
      (fun _ _ => .ok "t") (fun s => (.ok s : Except PyErr String))
      = (.error (.keyError "q"), 0, [1, 1]) :=
  c2_missing_placeholder_amended [("other", "x")] rfl _ _

/-! ## C6 — segment shape errors -/

/-- The YAML loop fails at the first segment the loader rejects, with the
source's error message carrying the full rendered text and that segment. -/
theorem loadSegs_append_err {load y} (pre : List String) {line : String}
    (post : List String) (hpre : ∀ s ∈ pre, ∃ v, load s = .ok v)
    {e : String} (hline : load line = .error e) :
    loadSegs load y (pre ++ line :: post)
      = .error (.yamlErr ("\n\nFailed to parse YAML: \n\n" ++ y ++ "\n\n" ++ line ++ "\n\n")) := by
  induction pre with
  | nil => simp [loadSegs, hline]
  | cons s rest ih =>
    obtain ⟨v, hv⟩ := hpre s (by simp)
    have hr := ih (fun s2 hs2 => hpre s2 (by simp [hs2]))
    simp [loadSegs, hv, hr, Except.map]

/-- C6 (corrected, amended part): a segment that is not valid structured
text — the first one the loader rejects — does fail compilation with the
`Failed to parse YAML` error whose message carries both the full rendered
text and the offending segment (each a substring); but the other half of
the claim fails: a segment loading to a non-mapping raises a bare
`AttributeError` without those texts, an empty mapping an `IndexError`,
and a mapping with several keys silently becomes a `Message` built from
its first key-value pair (see the counterexample). -/
theorem c6_segment_shape_amended (load : String → Except String JVal) (y : String)
    (pre post : List String) (line : String) (e : String)
    (hsegs : segmentsOf y = pre ++ line :: post)
    (hpre : ∀ s ∈ pre, ∃ v, load s = .ok v)
    (hline : load line = .error e) :
    (parseRendered load y
      = .error (.yamlErr ("\n\nFailed to parse YAML: \n\n" ++ y ++ "\n\n" ++ line ++ "\n\n")) ∧
     (∃ a b, "\n\nFailed to parse YAML: \n\n" ++ y ++ "\n\n" ++ line ++ "\n\n"
        = a ++ y ++ b) ∧
     (∃ a b, "\n\nFailed to parse YAML: \n\n" ++ y ++ "\n\n" ++ line ++ "\n\n"
        = a ++ line ++ b)) ∧
    parseRendered yamlSafeLoad "hello"
      = .error (.attrErr "'str' object has no attribute 'keys'") ∧
    parseRendered (fun _ => .ok (.obj [])) "x"
      = .error (.indexErr "list index out of range") ∧
    parseRendered yamlSafeLoad "a: 1\nb: 2" = .ok [⟨"a", "1"⟩] := by
  refine ⟨⟨?_, ?_, ?_⟩, rfl, rfl, rfl⟩
  · simp [parseRendered, hsegs, loadSegs_append_err pre post hpre hline]
  · exact ⟨"\n\nFailed to parse YAML: \n\n", "\n\n" ++ line ++ "\n\n",
      by simp [String.append_assoc]⟩
  · exact ⟨"\n\nFailed to parse YAML: \n\n" ++ y ++ "\n\n", "\n\n",
      by simp [String.append_assoc]⟩

/-- C6 (counterexample): the rendered text `"a: 1\nb: 2"` is one segment
that loads as a mapping with two keys — not the one-key-one-value shape —
yet compilation raises no `PromptParseError`: it silently builds the
message `(a, "1")` from the first key-value pair. -/
theorem c6_multikey_silent_message :
    yamlSafeLoad "a: 1\nb: 2" = .ok (.obj [("a", .num 1), ("b", .num 2)]) ∧
    parseRendered yamlSafeLoad "a: 1\nb: 2" = .ok [⟨"a", "1"⟩] :=
  ⟨rfl, rfl⟩

/-- C6 witness: the amended claim at the concrete rendered text
`">> >>oops"`, whose single kept segment `">>oops"` the YAML loader
rejects (invalid block-scalar header). -/
theorem c6_segment_shape_witness :
    (parseRendered yamlSafeLoad ">> >>oops"
      = .error (.yamlErr ("\n\nFailed to parse YAML: \n\n>> >>oops\n\n>>oops\n\n")) ∧
     (∃ a b, "\n\nFailed to parse YAML: \n\n" ++ ">> >>oops" ++ "\n\n" ++ ">>oops" ++ "\n\n"
        = a ++ ">> >>oops" ++ b) ∧
     (∃ a b, "\n\nFailed to parse YAML: \n\n" ++ ">> >>oops" ++ "\n\n" ++ ">>oops" ++ "\n\n"
        = a ++ ">>oops" ++ b)) ∧
    parseRendered yamlSafeLoad "hello"
      = .error (.attrErr "'str' object has no attribute 'keys'") ∧
    parseRendered (fun _ => .ok (.obj [])) "x"
      = .error (.indexErr "list index out of range") ∧
    parseRendered yamlSafeLoad "a: 1\nb: 2" = .ok [⟨"a", "1"⟩] :=
  c6_segment_shape_amended yamlSafeLoad ">> >>oops" [] [] ">>oops"
    "while scanning a block scalar, expected chomping or indentation indicators, but found >"
    rfl (by intro s hs; exact absurd hs (List.not_mem_nil s)) rfl

/-! ## C7 — segment count and order -/

/-- When every segment of a list loads as a non-empty mapping, the load
loop and message comprehension succeed, producing one message per segment
in order, each built from its segment's first key-value pair. -/
theorem parse_segments_ok (load : String → Except String JVal) (y : String) :
    ∀ segs : List String,
      (∀ s ∈ segs, ∃ k v rest, load s = .ok (.obj ((k, v) :: rest))) →
      ∃ msgs, (match loadSegs load y segs with
               | .error e => (.error e : Except PyErr (List Message))
               | .ok vs => buildMsgs vs) = .ok msgs ∧
        List.Forall₂ (fun s m => ∃ k v rest,
          load s = .ok (.obj ((k, v) :: rest)) ∧ m = Message.mk k (dumps v)) segs msgs := by
  intro segs
  induction segs with
  | nil => exact fun _ => ⟨[], rfl, .nil⟩
  | cons s rest ih =>
    intro hall
    obtain ⟨k, v, r, hs⟩ := hall s (by simp)
    obtain ⟨msgs, hmsgs, hf⟩ := ih (fun s2 hs2 => hall s2 (by simp [hs2]))
    rcases hls : loadSegs load y rest with e | vs
    · rw [hls] at hmsgs; cases hmsgs
    · rw [hls] at hmsgs
      have hbm : buildMsgs vs = .ok msgs := hmsgs
      refine ⟨⟨k, dumps v⟩ :: msgs, ?_, .cons ⟨k, v, r, hs, rfl⟩ hf⟩
      simp [loadSegs, hs, hls, Except.map, buildMsgs, toMessage, hbm]

/-- C7 (amended): for every loader behaviour and rendered text whose kept
segments (split on `">> "`, stripped, empties dropped) each load as a
mapping with at least one key, compilation succeeds with exactly one
message per kept segment, in source order, each message built from its
segment's first key-value pair; and the empty rendered text compiles to
the empty message list. The claim as frozen omits the mapping-shape
requirement, without which compilation can fail (see counterexample). -/
theorem c7_segment_count_amended (load : String → Except String JVal) (y : String)
    (h : ∀ s ∈ segmentsOf y, ∃ k v rest, load s = .ok (.obj ((k, v) :: rest))) :
    ∃ msgs, parseRendered load y = .ok msgs ∧
      msgs.length = (segmentsOf y).length ∧
      List.Forall₂ (fun s m => ∃ k v rest,
        load s = .ok (.obj ((k, v) :: rest)) ∧ m = Message.mk k (dumps v))
        (segmentsOf y) msgs ∧
      parseRendered load "" = .ok [] := by
  obtain ⟨msgs, hm, hf⟩ := parse_segments_ok load y (segmentsOf y) h
  exact ⟨msgs, hm, hf.length_eq.symm, hf, rfl⟩

/-- C7 (counterexample): the rendered text `"hello"` has exactly one
non-empty trimmed segment, yet compilation does not produce one message —
it raises an `AttributeError`, because the segment loads as a plain
scalar, not a mapping. -/
theorem c7_scalar_segment_fails :
    (segmentsOf "hello").length = 1 ∧
    parseRendered yamlSafeLoad "hello"
      = .error (.attrErr "'str' object has no attribute 'keys'") :=
  ⟨rfl, rfl⟩

/-- C7 witness: the amended claim at the concrete rendered text
`">> system: hello\n>> user: hi"` under the YAML loader model. -/
theorem c7_segment_count_witness :
    ∃ msgs, parseRendered yamlSafeLoad ">> system: hello\n>> user: hi" = .ok msgs ∧
      msgs.length = (segmentsOf ">> system: hello\n>> user: hi").length ∧
      List.Forall₂ (fun s m => ∃ k v rest,
        yamlSafeLoad s = .ok (.obj ((k, v) :: rest)) ∧ m = Message.mk k (dumps v))
        (segmentsOf ">> system: hello\n>> user: hi") msgs ∧
      parseRendered yamlSafeLoad "" = .ok [] := by
  refine c7_segment_count_amended yamlSafeLoad ">> system: hello\n>> user: hi" ?_
  intro s hs
  have hsegs : segmentsOf ">> system: hello\n>> user: hi"
      = ["system: hello", "user: hi"] := rfl
  rw [hsegs] at hs
  simp only [List.mem_cons, List.not_mem_nil, or_false] at hs
  rcases hs with rfl | rfl
  · exact ⟨"system", .str "hello", [], rfl⟩
  · exact ⟨"user", .str "hi", [], rfl⟩

/-! ## C10 — message content is serialized JSON -/

/-- Every message the comprehension builds has as content the `json.dumps`
serialization of some loaded value. -/
theorem buildMsgs_content :
    ∀ vs msgs, buildMsgs vs = .ok msgs →
      ∀ m ∈ msgs, ∃ v : JVal, m.content = dumps v := by
  intro vs
  induction vs with
  | nil =>
    intro msgs h
    cases h
    simp
  | cons v rest ih =>
    intro msgs h
    rcases htm : toMessage v with e | m0
    · rw [buildMsgs, htm] at h; cases h
    · rcases hrest : buildMsgs rest with e | ms
      · rw [buildMsgs, htm, hrest] at h; cases h
      · rw [buildMsgs, htm, hrest] at h
        simp only [Except.map, Except.ok.injEq] at h
        subst h
        intro m hm
        simp only [List.mem_cons] at hm
        rcases hm with rfl | hm
        · rcases v with _ | b | i | s | es | fields
          · cases htm
          · cases htm
          · cases htm
          · cases htm
          · cases htm
          · rcases fields with _ | ⟨⟨k, val⟩, fs⟩
            · cases htm
            · simp only [toMessage, Except.ok.injEq] at htm
              exact ⟨val, by rw [← htm]⟩
        · exact ih ms hrest m hm

/-- C10 (confirmed): every `Message` a successful compilation produces has
as content a `json.dumps`-serialized value (valid JSON text): a plain
scalar turn like `hello` becomes the quoted JSON string `"hello"`, and a
nested mapping becomes its flat JSON serialization. -/
theorem c10_content_serialized (load : String → Except String JVal) (jinja : Bool)
    (doc : String) (inputs : List (String × String)) (msgs : List Message)
    (h : build_prompt load jinja doc inputs = .ok msgs) :
    (∀ m ∈ msgs, ∃ v : JVal, m.content = dumps v) ∧
    build_prompt yamlSafeLoad false ">> user: hello" []
      = .ok [⟨"user", dumps (.str "hello")⟩] ∧
    dumps (.str "hello") = "\"hello\"" ∧
    build_prompt (fun _ => .ok (.obj [("user", .obj [("a", .num 1)])])) false ">> x" []
      = .ok [⟨"user", dumps (.obj [("a", .num 1)])⟩] ∧
    dumps (.obj [("a", .num 1)]) = "\x7b\"a\": 1\x7d" := by
  refine ⟨?_, rfl, rfl, rfl, rfl⟩
  rcases hr : renderDoc jinja doc inputs with e | y
  · rw [build_prompt, hr] at h; cases h
  · rw [build_prompt, hr] at h
    have h2 : (match loadSegs load y (segmentsOf y) with
        | .error e => (.error e : Except PyErr (List Message))
        | .ok vs => buildMsgs vs) = .ok msgs := h
    rcases hls : loadSegs load y (segmentsOf y) with e | vs
    · rw [hls] at h2; cases h2
    · rw [hls] at h2
      exact buildMsgs_content vs msgs h2

/-- C10 witness: the invariant applied to the concrete compilation of
`">> user: hello"`, whose single message carries the quoted JSON string. -/
theorem c10_content_serialized_witness :
    ∃ v : JVal, (Message.mk "user" "\"hello\"").content = dumps v :=
  (c10_content_serialized yamlSafeLoad false ">> user: hello" []
    [⟨"user", "\"hello\""⟩] rfl).1 (Message.mk "user" "\"hello\"")
    (List.mem_cons_self _ _)

/-! ## C1 — retry policy -/

/-- C1 (confirmed): around a fixed successfully-compiling pipeline
(`">> user: hello"`, literal mode, no bindings, identity cast), for every
gateway stub that fails deterministically on its first `K` invocations
(with arbitrary per-invocation messages) and then succeeds: the decorated
call succeeds exactly when `K < 3`; the gateway is invoked exactly
`min (K+1) 3` times; the delays slept between attempts are a fixed 1
second each, `min K 2` of them; and when all three attempts fail the
surfaced failure is the last attempt's (invocation index 2), enriched
with the prompt text. -/
theorem c1_retry_attempts (errs : Nat → String) (K : Nat) :
    ((pr_call yamlSafeLoad false ">> user: hello" []
        (fun n _ => if n < K then .error (.gatewayErr (errs n)) else .ok "ok")
        (fun s => (.ok s : Except PyErr String))).1 = .ok "ok" ↔ K < 3) ∧
    (pr_call yamlSafeLoad false ">> user: hello" []
        (fun n _ => if n < K then .error (.gatewayErr (errs n)) else .ok "ok")
        (fun s => (.ok s : Except PyErr String))).2.1 = min (K + 1) 3 ∧
    (pr_call yamlSafeLoad false ">> user: hello" []
        (fun n _ => if n < K then .error (.gatewayErr (errs n)) else .ok "ok")
        (fun s => (.ok s : Except PyErr String))).2.2
      = List.replicate (min K 2) 1 ∧
    (3 ≤ K → (pr_call yamlSafeLoad false ">> user: hello" []
        (fun n _ => if n < K then .error (.gatewayErr (errs n)) else .ok "ok")
        (fun s => (.ok s : Except PyErr String))).1
      = .error (.enriched (errs 2 ++ "\n\nPrompt:\n\n" ++ "user: \"hello\""))) := by
  have hbp : build_prompt yamlSafeLoad false ">> user: hello" []
      = .ok [⟨"user", "\"hello\""⟩] := rfl
  match K with
  | 0 =>
    exact ⟨⟨fun _ => by omega, fun _ => rfl⟩, rfl, rfl, fun h3 => absurd h3 (by omega)⟩
  | 1 =>
    exact ⟨⟨fun _ => by omega, fun _ => rfl⟩, rfl, rfl, fun h3 => absurd h3 (by omega)⟩
  | 2 =>
    exact ⟨⟨fun _ => by omega, fun _ => rfl⟩, rfl, rfl, fun h3 => absurd h3 (by omega)⟩
  | k + 3 =>
    have hstep : ∀ n, n < k + 3 →
        attemptOnce yamlSafeLoad false ">> user: hello" []
          (fun n _ => if n < k + 3 then .error (.gatewayErr (errs n)) else .ok "ok")
          (fun s => (.ok s : Except PyErr String)) n
        = (.error (.enriched ((PyErr.gatewayErr (errs n)).str ++ "\n\nPrompt:\n\n"
            ++ String.intercalate "\n" ([Message.mk "user" "\"hello\""].map Message.toStr))),
           n + 1) := by
      intro n hn
      exact attemptOnce_of_gw_err hbp (by rw [if_pos hn])
    have hout : pr_call yamlSafeLoad false ">> user: hello" []
        (fun n _ => if n < k + 3 then .error (.gatewayErr (errs n)) else .ok "ok")
        (fun s => (.ok s : Except PyErr String))
        = (.error (.enriched (errs 2 ++ "\n\nPrompt:\n\n" ++ "user: \"hello\"")), 3, [1, 1]) :=
      retryLoop3_fail _ _ _ _ 1 2 3
        (hstep 0 (by omega)) (hstep 1 (by omega)) (hstep 2 (by omega))
    refine ⟨?_, ?_, ?_, fun _ => by rw [hout]⟩
    · rw [hout]
      exact iff_of_false (by simp) (by omega)
    · rw [hout]
      have : min (k + 3 + 1) 3 = 3 := by omega
      rw [this]
    · rw [hout]
      have : min (k + 3) 2 = 2 := by omega
      rw [this]
      rfl

/-- C1 witness: the retry bound at the concrete always-failing stub
(`K = 5`): three attempts, the last failure surfaced enriched. -/
theorem c1_retry_attempts_witness :
    3 ≤ 5 ∧
    (pr_call yamlSafeLoad false ">> user: hello" []
        (fun n _ => if n < 5 then .error (.gatewayErr "boom") else .ok "ok")
        (fun s => (.ok s : Except PyErr String))).1
      = .error (.enriched ("boom" ++ "\n\nPrompt:\n\n" ++ "user: \"hello\"")) :=
  ⟨by omega, (c1_retry_attempts (fun _ => "boom") 5).2.2.2 (by omega)⟩

/-! ## C4 — error enrichment -/

/-- C4 (amended): whenever prompt compilation succeeds and the pipeline
nevertheless fails (gateway or cast), the surfaced terminal error's
message contains the debug rendering of the compiled prompt as a
substring (it is a suffix, after the `Prompt:` marker). Failures of the
compilation itself escape unenriched (see the counterexample), which is
what the frozen claim misses. -/
theorem c4_enrichment_amended {ρ : Type} (load : String → Except String JVal)
    (jinja : Bool) (doc : String) (inputs : List (String × String))
    (gw : Nat → List Message → Except PyErr String) (cast : String → Except PyErr ρ)
    (msgs : List Message) (e : PyErr) (n : Nat) (sl : List Nat)
    (hbp : build_prompt load jinja doc inputs = .ok msgs)
    (hcall : pr_call load jinja doc inputs gw cast = (.error e, n, sl)) :
    ∃ pre, e.str = pre ++ "\n\nPrompt:\n\n"
      ++ String.intercalate "\n" (msgs.map Message.toStr) := by
  refine retryLoop_err_prop (attemptOnce load jinja doc inputs gw cast)
    (fun r => ∃ pre, r.str = pre ++ "\n\nPrompt:\n\n"
      ++ String.intercalate "\n" (msgs.map Message.toStr))
    ?_ 3 0 [] e n sl (by omega) hcall
  intro m r m' hat
  rcases hgw : gw m msgs with e0 | txt
  · rw [attemptOnce_of_gw_err hbp hgw] at hat
    simp only [Prod.mk.injEq, Except.error.injEq] at hat
    obtain ⟨h1, -⟩ := hat
    subst h1
    exact ⟨e0.str, rfl⟩
  · rcases hc : cast txt with e0 | v
    · have hat2 : attemptOnce load jinja doc inputs gw cast m
          = (.error (.enriched (e0.str ++ "\n\nPrompt:\n\n"
              ++ String.intercalate "\n" (msgs.map Message.toStr))), m + 1) := by
        simp [attemptOnce, hbp, hgw, hc, build_string_of_ok hbp]
      rw [hat2] at hat
      simp only [Prod.mk.injEq, Except.error.injEq] at hat
      obtain ⟨h1, -⟩ := hat
      subst h1
      exact ⟨e0.str, rfl⟩
    · have hat2 : attemptOnce load jinja doc inputs gw cast m = (.ok v, m + 1) := by
        simp [attemptOnce, hbp, hgw, hc]
      rw [hat2] at hat
      simp at hat

/-- C4 (counterexample): when the failure that escapes retry arose in
prompt compilation itself — here a missing placeholder — the terminal
error is the bare `KeyError`, whose entire message is `'q'`: it contains
no rendered prompt text, and the debug rendering (`build_string`) itself
fails on the same bindings, so the text the claim requires does not even
exist. This refutes the claim's "whether it arose in prompt compilation". -/
theorem c4_compile_failure_unenriched :
    pr_call yamlSafeLoad false ">> user: \x7bq\x7d" []
      (fun _ _ => .ok "t") (fun s => (.ok s : Except PyErr String))
      = (.error (.keyError "q"), 0, [1, 1]) ∧
    PyErr.str (.keyError "q") = "'q'" ∧
    build_string yamlSafeLoad false ">> user: \x7bq\x7d" [] = .error (.keyError "q") :=
  ⟨rfl, rfl, rfl⟩

/-- C4 witness: the amended enrichment at a concrete failing gateway. -/
theorem c4_enrichment_witness :
    ∃ pre, PyErr.str (.enriched ("boom" ++ "\n\nPrompt:\n\n" ++ "user: \"hello\""))
      = pre ++ "\n\nPrompt:\n\n"
        ++ String.intercalate "\n" ([Message.mk "user" "\"hello\""].map Message.toStr) :=
  c4_enrichment_amended yamlSafeLoad false ">> user: hello" []
    (fun _ _ => .error (.gatewayErr "boom")) (fun s => (.ok s : Except PyErr String))
    [⟨"user", "\"hello\""⟩] (.enriched ("boom" ++ "\n\nPrompt:\n\n" ++ "user: \"hello\""))
    3 [1, 1] rfl rfl

/-! ## C8 — the derived schema description -/

/-- C8 (confirmed): for a schema-capable (pydantic) declared return type,
`llm_schema()` is exactly the triple of the schema's title, its
description — the empty string when absent — and the full schema as
parameters; and it is a pure function of the declared type's schema, so
two types with the same schema get the same description. -/
theorem c8_llm_schema (rc : ReturnCls) (t : JVal)
    (h : lookupField rc.schema "title" = some t) :
    llm_schema rc
      = .ok ⟨t, (lookupField rc.schema "description").getD (.str ""), .obj rc.schema⟩ ∧
    (∀ rc2 : ReturnCls, rc2.schema = rc.schema → llm_schema rc2 = llm_schema rc) ∧
    (lookupField rc.schema "description" = none →
      llm_schema rc = .ok ⟨t, .str "", .obj rc.schema⟩) := by
  refine ⟨by simp [llm_schema, pydantic_schema, h], ?_, ?_⟩
  · intro rc2 h2
    simp [llm_schema, h2]
  · intro hd
    simp [llm_schema, pydantic_schema, h, hd]

/-- C8 witness: the schema description of a concrete `Answer` model
schema with no description. -/
theorem c8_llm_schema_witness :
    llm_schema ⟨[("title", .str "Answer"), ("type", .str "object")]⟩
      = .ok ⟨.str "Answer", .str "",
          .obj [("title", .str "Answer"), ("type", .str "object")]⟩ :=
  (c8_llm_schema ⟨[("title", .str "Answer"), ("type", .str "object")]⟩
    (.str "Answer") rfl).2.2 rfl

/-! ## C9 — serialization round-trip

The chain below inverts the serializer on flat record instances: decimal
digits, escaped strings, scalar values, object members, and finally
`cast_result (modelJson inst) = .ok inst`. -/

/-- A decimal digit character carries its value and satisfies `isDigit`. -/
theorem digitChar_spec (d : Nat) (h : d < 10) :
    (digitChar d).toNat = 48 + d ∧ (digitChar d).isDigit = true := by
  interval_cases d <;> exact ⟨rfl, rfl⟩

/-- The renderer's accumulator rides along on the right, independent of
surplus fuel. -/
theorem natCharsGo_acc (n : Nat) : ∀ f acc, n < f →
    natCharsGo f n acc = natChars n ++ acc := by
  induction n using Nat.strong_induction_on with
  | _ n ih =>
    intro f acc hf
    match f, hf with
    | f + 1, _ =>
      by_cases h10 : n < 10
      · simp [natCharsGo, natChars, h10]
      · have hdiv : n / 10 < n := Nat.div_lt_self (by omega) (by omega)
        have hlhs : natCharsGo (f + 1) n acc
            = natChars (n / 10) ++ (digitChar (n % 10) :: acc) := by
          rw [show natCharsGo (f + 1) n acc
              = natCharsGo f (n / 10) (digitChar (n % 10) :: acc) from by
            simp [natCharsGo, h10]]
          exact ih (n / 10) hdiv f _ (by omega)
        have hrhs : natChars n = natChars (n / 10) ++ [digitChar (n % 10)] := by
          rw [show natChars n = natCharsGo n (n / 10) [digitChar (n % 10)] from by
            simp [natChars, natCharsGo, h10]]
          exact ih (n / 10) hdiv n _ (by omega)
        rw [hlhs, hrhs, List.append_assoc]
        rfl

/-- One unfolding of the decimal renderer, last digit outermost. -/
theorem natChars_unfold (n : Nat) :
    natChars n = (if n < 10 then [] else natChars (n / 10)) ++ [digitChar (n % 10)] := by
  by_cases h10 : n < 10
  · simp [natChars, natCharsGo, h10, Nat.mod_eq_of_lt h10]
  · have hdiv : n / 10 < n := Nat.div_lt_self (by omega) (by omega)
    rw [if_neg h10]
    rw [show natChars n = natCharsGo n (n / 10) [digitChar (n % 10)] from by
      simp [natChars, natCharsGo, h10]]
    exact natCharsGo_acc (n / 10) n _ (by omega)

/-- A rendered natural number is never the empty digit run. -/
theorem natChars_ne_nil (n : Nat) : natChars n ≠ [] := by
  rw [natChars_unfold]
  simp

/-- Every character of a rendered natural number is a digit. -/
theorem natChars_all_digit (n : Nat) : ∀ c ∈ natChars n, c.isDigit = true := by
  induction n using Nat.strong_induction_on with
  | _ n ih =>
    rw [natChars_unfold]
    intro c hc
    rw [List.mem_append] at hc
    rcases hc with hc | hc
    · by_cases h10 : n < 10
      · simp [h10] at hc
      · exact ih (n / 10) (Nat.div_lt_self (by omega) (by omega)) c (by simpa [h10] using hc)
    · rw [List.mem_singleton] at hc
      subst hc
      exact (digitChar_spec (n % 10) (Nat.mod_lt _ (by omega))).2

/-- Folding the digit values over a rendered natural number recovers it. -/
theorem digsToNat_natChars (n : Nat) : digsToNat (natChars n) = n := by
  induction n using Nat.strong_induction_on with
  | _ n ih =>
    rw [digsToNat, natChars_unfold, List.foldl_append]
    by_cases h10 : n < 10
    · simp only [if_pos h10, List.foldl_nil, List.foldl_cons]
      rw [(digitChar_spec (n % 10) (Nat.mod_lt _ (by omega))).1]
      omega
    · simp only [if_neg h10, List.foldl_cons, List.foldl_nil]
      have hih := ih (n / 10) (Nat.div_lt_self (by omega) (by omega))
      rw [digsToNat] at hih
      rw [hih, (digitChar_spec (n % 10) (Nat.mod_lt _ (by omega))).1]
      omega

/-- `takeDigs` is the identity split on input that starts with no digit. -/
theorem takeDigs_stop {cs : List Char} (h : noDigitHead cs = true) :
    takeDigs cs = ([], cs) := by
  match cs with
  | [] => rfl
  | c :: t =>
    simp only [noDigitHead, Bool.not_eq_true'] at h
    simp [takeDigs, h]

/-- `takeDigs` consumes exactly a leading digit run. -/
theorem takeDigs_run (ds : List Char) (hds : ∀ c ∈ ds, c.isDigit = true)
    (rest : List Char) (hrest : noDigitHead rest = true) :
    takeDigs (ds ++ rest) = (ds, rest) := by
  induction ds with
  | nil => simpa using takeDigs_stop hrest
  | cons c t ih =>
    have hc : c.isDigit = true := hds c (by simp)
    have ht := ih (fun x hx => hds x (by simp [hx]))
    simp [takeDigs, hc, ht]

/-- A rendered natural number starts with a digit. -/
theorem natChars_cons (n : Nat) :
    ∃ c t, natChars n = c :: t ∧ c.isDigit = true := by
  match h : natChars n with
  | [] => exact absurd h (natChars_ne_nil n)
  | c :: t =>
    refine ⟨c, t, rfl, natChars_all_digit n c ?_⟩
    rw [h]
    exact List.mem_cons_self c t

/-- `jNum` inverts the integer renderer whenever the remainder cannot
extend the number. -/
theorem jNum_intChars (i : Int) (rest : List Char) (hr : noDigitHead rest = true) :
    jNum (intChars i ++ rest) = some (i, rest) := by
  have htake : takeDigs (natChars i.natAbs ++ rest) = (natChars i.natAbs, rest) :=
    takeDigs_run _ (natChars_all_digit _) rest hr
  obtain ⟨c, t, hct, hcd⟩ := natChars_cons i.natAbs
  have hdv : digsToNat (c :: t) = i.natAbs := by
    rw [← hct, digsToNat_natChars]
  by_cases hneg : i < 0
  · have harg : intChars i ++ rest = '-' :: (natChars i.natAbs ++ rest) := by
      simp [intChars, hneg]
    have htake2 : takeDigs (natChars i.natAbs ++ rest) = (c :: t, rest) := by
      rw [htake, hct]
    rw [harg, jNum, htake2]
    show some (-(digsToNat (c :: t) : Int), rest) = some (i, rest)
    rw [hdv]
    simp only [Option.some.injEq, Prod.mk.injEq]
    exact ⟨by omega, trivial⟩
  · have hcm : c ≠ '-' := by
      intro hc
      rw [hc] at hcd
      exact absurd hcd (by decide)
    have harg : intChars i ++ rest = c :: (t ++ rest) := by
      simp [intChars, hneg, hct]
    have htake2 : takeDigs (c :: (t ++ rest)) = (c :: t, rest) := by
      rw [← List.cons_append, ← hct]
      exact htake
    rw [harg, jNum.eq_def]
    split
    · rename_i cs heq
      rw [List.cons.injEq] at heq
      exact absurd heq.1 hcm
    · rw [htake2]
      show some ((digsToNat (c :: t) : Int), rest) = some (i, rest)
      rw [hdv]
      simp only [Option.some.injEq, Prod.mk.injEq]
      exact ⟨by omega, trivial⟩

/-- A hexadecimal digit character carries its value back through `hexVal`. -/
theorem hexVal_hexChar (d : Nat) (h : d < 16) : hexVal (hexChar d) = some d := by
  interval_cases d <;> decide

/-- Parsing one escaped character undoes `jsonEscapeChar`. -/
theorem jStrBody_escape (c : Char) (acc rest : List Char) :
    jStrBody acc (jsonEscapeChar c ++ rest) = jStrBody (c :: acc) rest := by
  by_cases h1 : c = '"'
  · subst h1; rfl
  by_cases h2 : c = '\\'
  · subst h2; rfl
  by_cases h3 : c = '\n'
  · subst h3; rfl
  by_cases h4 : c = '\t'
  · subst h4; rfl
  by_cases h5 : c = '\r'
  · subst h5; rfl
  by_cases h6 : c = Char.ofNat 8
  · subst h6; rfl
  by_cases h7 : c = Char.ofNat 12
  · subst h7; rfl
  by_cases h8 : c.toNat < 32
  · have harg : jsonEscapeChar c
        = ['\\', 'u', '0', '0', hexChar (c.toNat / 16), hexChar (c.toNat % 16)] := by
      simp [jsonEscapeChar, h1, h2, h3, h4, h5, h6, h7, h8]
    rw [harg]
    show (match hexVal '0', hexVal '0', hexVal (hexChar (c.toNat / 16)),
            hexVal (hexChar (c.toNat % 16)) with
      | some va, some vb, some vc2, some vd =>
        jStrBody (Char.ofNat (((va * 16 + vb) * 16 + vc2) * 16 + vd) :: acc) rest
      | _, _, _, _ => none) = jStrBody (c :: acc) rest
    rw [hexVal_hexChar (c.toNat / 16) (by omega), hexVal_hexChar (c.toNat % 16) (by omega)]
    show jStrBody
        (Char.ofNat (((0 * 16 + 0) * 16 + c.toNat / 16) * 16 + c.toNat % 16) :: acc) rest
      = jStrBody (c :: acc) rest
    have hval : ((0 * 16 + 0) * 16 + c.toNat / 16) * 16 + c.toNat % 16 = c.toNat := by
      omega
    rw [hval, Char.ofNat_toNat]
  · have harg : jsonEscapeChar c = [c] := by
      simp [jsonEscapeChar, h1, h2, h3, h4, h5, h6, h7, h8]
    rw [harg]
    show jStrBody acc (c :: rest) = jStrBody (c :: acc) rest
    rw [jStrBody.eq_def]
    split
    · rename_i heq
      rw [List.cons.injEq] at heq
      exact absurd heq.1 h1
    · rename_i heq
      rw [List.cons.injEq] at heq
      exact absurd heq.1 h2
    · rename_i heq
      rw [List.cons.injEq] at heq
      exact absurd heq.1 h2
    · rename_i heq
      rw [List.cons.injEq] at heq
      rw [← heq.1, ← heq.2]
    · rename_i heq
      cases heq

/-- Parsing a fully escaped character run stops exactly at the closing
quote and recovers the characters. -/
theorem jStrBody_flat (cs : List Char) : ∀ acc rest,
    jStrBody acc ((cs.map jsonEscapeChar).flatten ++ '"' :: rest)
      = some (String.mk (acc.reverse ++ cs), rest) := by
  induction cs with
  | nil =>
    intro acc rest
    simp [jStrBody]
  | cons c cs ih =>
    intro acc rest
    rw [List.map_cons, List.flatten_cons, List.append_assoc, jStrBody_escape, ih]
    simp

/-- The string codec round-trip: a rendered string body parses back. -/
theorem jStrBody_quote (s : String) (rest : List Char) :
    jStrBody [] ((s.toList.map jsonEscapeChar).flatten ++ '"' :: rest)
      = some (s, rest) := by
  rw [jStrBody_flat]
  rfl

/-- `jVal` on input whose first significant character opens no keyword,
string, array or object: it parses a number. -/
theorem jVal_catchall (f : Nat) (cs : List Char) (c0 : Char) (t : List Char)
    (hskip : skipJWs cs = c0 :: t)
    (hn : c0 ≠ 'n') (ht : c0 ≠ 't') (hf : c0 ≠ 'f') (hq : c0 ≠ '"')
    (hlb : c0 ≠ '[') (hob : c0 ≠ '\x7b') :
    jVal (f + 1) cs = (jNum (c0 :: t)).map (fun p => (JVal.num p.1, p.2)) := by
  show (match skipJWs cs with
    | 'n' :: 'u' :: 'l' :: 'l' :: r => some (JVal.null, r)
    | 't' :: 'r' :: 'u' :: 'e' :: r => some (JVal.bool true, r)
    | 'f' :: 'a' :: 'l' :: 's' :: 'e' :: r => some (JVal.bool false, r)
    | '"' :: r => Option.map (fun p => (JVal.str p.1, p.2)) (jStrBody [] r)
    | '[' :: r =>
      match skipJWs r with
      | ']' :: r2 => some (JVal.arr [], r2)
      | r2 => Option.map (fun p => (JVal.arr p.1, p.2)) (jItems f r2)
    | '\x7b' :: r =>
      match skipJWs r with
      | '\x7d' :: r2 => some (JVal.obj [], r2)
      | r2 => Option.map (fun p => (JVal.obj p.1, p.2)) (jMembers f r2)
    | cs2 => Option.map (fun p => (JVal.num p.1, p.2)) (jNum cs2))
    = Option.map (fun p => (JVal.num p.1, p.2)) (jNum (c0 :: t))
  rw [hskip]
  split
  · rename_i heq
    rw [List.cons.injEq] at heq
    exact absurd heq.1 hn
  · rename_i heq
    rw [List.cons.injEq] at heq
    exact absurd heq.1 ht
  · rename_i heq
    rw [List.cons.injEq] at heq
    exact absurd heq.1 hf
  · rename_i heq
    rw [List.cons.injEq] at heq
    exact absurd heq.1 hq
  · rename_i heq
    rw [List.cons.injEq] at heq
    exact absurd heq.1 hlb
  · rename_i heq
    rw [List.cons.injEq] at heq
    exact absurd heq.1 hob
  · rfl

/-- A digit character opens none of the other token kinds. -/
theorem digit_opens_number {c : Char} (hc : c.isDigit = true) :
    c ≠ 'n' ∧ c ≠ 't' ∧ c ≠ 'f' ∧ c ≠ '"' ∧ c ≠ '[' ∧ c ≠ '\x7b' ∧
    (c = ' ' || c = '\t' || c = '\n' || c = '\r') = false := by
  refine ⟨?_, ?_, ?_, ?_, ?_, ?_, ?_⟩
  · intro h; rw [h] at hc; exact absurd hc (by decide)
  · intro h; rw [h] at hc; exact absurd hc (by decide)
  · intro h; rw [h] at hc; exact absurd hc (by decide)
  · intro h; rw [h] at hc; exact absurd hc (by decide)
  · intro h; rw [h] at hc; exact absurd hc (by decide)
  · intro h; rw [h] at hc; exact absurd hc (by decide)
  · simp only [Bool.or_eq_false_iff]
    refine ⟨⟨⟨?_, ?_⟩, ?_⟩, ?_⟩ <;>
      · rw [decide_eq_false_iff_not]
        intro h
        rw [h] at hc
        exact absurd hc (by decide)

/-- `skipJWs` is the identity when the head is no JSON whitespace. -/
theorem skipJWs_not_ws {c : Char} (t : List Char)
    (h : (c = ' ' || c = '\t' || c = '\n' || c = '\r') = false) :
    skipJWs (c :: t) = c :: t := by
  simp only [skipJWs, h]
  rfl

/-- An integer value parses back from its rendering after an optional
leading space, whenever the remainder cannot extend the number. -/
theorem jVal_num_ws (f : Nat) (i : Int) (rest : List Char)
    (hr : noDigitHead rest = true) :
    jVal (f + 1) (' ' :: (intChars i ++ rest)) = some (.num i, rest) := by
  have hskip0 : skipJWs (' ' :: (intChars i ++ rest)) = skipJWs (intChars i ++ rest) := by
    simp [skipJWs]
  by_cases hneg : i < 0
  · have harg : intChars i ++ rest = '-' :: (natChars i.natAbs ++ rest) := by
      simp [intChars, hneg]
    have hskip : skipJWs (' ' :: (intChars i ++ rest))
        = '-' :: (natChars i.natAbs ++ rest) := by
      rw [hskip0, harg, skipJWs_not_ws _ (by decide)]
    rw [jVal_catchall f _ '-' (natChars i.natAbs ++ rest) hskip
      (by decide) (by decide) (by decide) (by decide) (by decide) (by decide)]
    rw [← harg, jNum_intChars i rest hr]
    rfl
  · obtain ⟨c, t, hct, hcd⟩ := natChars_cons i.natAbs
    obtain ⟨hn, ht, hf2, hq, hlb, hob, hws⟩ := digit_opens_number hcd
    have harg : intChars i ++ rest = c :: (t ++ rest) := by
      simp [intChars, hneg, hct]
    have hskip : skipJWs (' ' :: (intChars i ++ rest)) = c :: (t ++ rest) := by
      rw [hskip0, harg, skipJWs_not_ws _ hws]
    rw [jVal_catchall f _ c (t ++ rest) hskip hn ht hf2 hq hlb hob]
    rw [show (c : Char) :: (t ++ rest) = intChars i ++ rest from harg.symm,
      jNum_intChars i rest hr]
    rfl

/-- A string value parses back from its rendering after an optional
leading space. -/
theorem jVal_str_ws (f : Nat) (s : String) (rest : List Char) :
    jVal (f + 1) (' ' :: (quoteL s ++ rest)) = some (.str s, rest) := by
  have harg : ' ' :: (quoteL s ++ rest)
      = ' ' :: '"' :: ((s.toList.map jsonEscapeChar).flatten ++ '"' :: rest) := by
    simp [quoteL]
  rw [harg]
  show (jStrBody [] ((s.toList.map jsonEscapeChar).flatten ++ '"' :: rest)).map
      (fun p => (JVal.str p.1, p.2)) = some (.str s, rest)
  rw [jStrBody_quote]
  rfl

/-- Any scalar field value parses back from its rendering after the
`": "` separator's space, whenever the remainder starts with no digit. -/
theorem jVal_fval_ws (f : Nat) (w : FVal) (rest : List Char)
    (hr : noDigitHead rest = true) :
    jVal (f + 1) (' ' :: (dumpL w.toJVal ++ rest)) = some (w.toJVal, rest) := by
  cases w with
  | vint i => exact jVal_num_ws f i rest hr
  | vstr s => exact jVal_str_ws f s rest
  | vbool b => cases b <;> rfl

/-- `jMembers` ignores one leading space (as `json.loads` skips
whitespace before a key). -/
theorem jMembers_ws (f : Nat) (cs : List Char) :
    jMembers (f + 1) (' ' :: cs) = jMembers (f + 1) cs := by
  show (match skipJWs (' ' :: cs) with
    | '"' :: r =>
      match jStrBody [] r with
      | none => none
      | some (k, r1) =>
        match skipJWs r1 with
        | ':' :: r2 =>
          match jVal f r2 with
          | none => none
          | some (v, r3) =>
            match skipJWs r3 with
            | ',' :: r4 => (jMembers f r4).map (fun p => ((k, v) :: p.1, p.2))
            | '}' :: r4 => some ([(k, v)], r4)
            | _ => none
        | _ => none
    | _ => none) = jMembers (f + 1) cs
  rw [show skipJWs (' ' :: cs) = skipJWs cs from by simp [skipJWs]]
  rfl

/-- Parsing one rendered `"key": value` member: the key string and the
scalar value are recovered, and what happens next is decided by the first
character after the value (a comma continues, a closing brace ends). -/
theorem jMembers_member (f : Nat) (k : String) (w : FVal) (after : List Char)
    (hafter : noDigitHead after = true) :
    jMembers (f + 2) (quoteL k ++ ':' :: ' ' :: (dumpL w.toJVal ++ after))
      = (match skipJWs after with
        | ',' :: r4 => (jMembers (f + 1) r4).map
            (fun p : List (String × JVal) × List Char => ((k, w.toJVal) :: p.1, p.2))
        | '}' :: r4 => some ([(k, w.toJVal)], r4)
        | _ => none) := by
  have harg : quoteL k ++ ':' :: ' ' :: (dumpL w.toJVal ++ after)
      = '"' :: ((k.toList.map jsonEscapeChar).flatten
          ++ '"' :: ':' :: ' ' :: (dumpL w.toJVal ++ after)) := by
    simp [quoteL]
  rw [harg]
  show (match jStrBody [] ((k.toList.map jsonEscapeChar).flatten
      ++ '"' :: ':' :: ' ' :: (dumpL w.toJVal ++ after)) with
    | none => none
    | some (k2, r1) =>
      match skipJWs r1 with
      | ':' :: r2 =>
        match jVal (f + 1) r2 with
        | none => none
        | some (v, r3) =>
          match skipJWs r3 with
          | ',' :: r4 => (jMembers (f + 1) r4).map
              (fun p : List (String × JVal) × List Char => ((k2, v) :: p.1, p.2))
          | '}' :: r4 => some ([(k2, v)], r4)
          | _ => none
      | _ => none) = _
  rw [jStrBody_quote]
  show (match jVal (f + 1) (' ' :: (dumpL w.toJVal ++ after)) with
    | none => none
    | some (v, r3) =>
      match skipJWs r3 with
      | ',' :: r4 => (jMembers (f + 1) r4).map
          (fun p : List (String × JVal) × List Char => ((k, v) :: p.1, p.2))
      | '}' :: r4 => some ([(k, v)], r4)
      | _ => none) = _
  rw [jVal_fval_ws f w after hafter]

/-- The members round-trip: a rendered non-empty member list with scalar
values parses back whole, given fuel at least the member count. -/
theorem jMembers_dumpObj : ∀ (ms : List (String × JVal)) (f : Nat) (rest : List Char),
    (∀ p ∈ ms, ∃ w : FVal, p.2 = FVal.toJVal w) → ms ≠ [] → ms.length ≤ f →
    jMembers (f + 1) (dumpObj ms ++ '}' :: rest) = some (ms, rest) := by
  intro ms
  induction ms with
  | nil => intro f rest _ hne _; exact absurd rfl hne
  | cons p ms' ih =>
    intro f rest hsc _ hlen
    obtain ⟨k, v⟩ := p
    obtain ⟨w, hw⟩ := hsc (k, v) (List.mem_cons_self _ _)
    simp only at hw
    cases ms' with
    | nil =>
      match f, hlen with
      | f' + 1, _ =>
        have harg : dumpObj [(k, v)] ++ '}' :: rest
            = quoteL k ++ ':' :: ' ' :: (dumpL v ++ ('}' :: rest)) := by
          simp [dumpObj]
        rw [harg, hw, jMembers_member f' k w ('}' :: rest) rfl]
        rfl
    | cons q ms'' =>
      match f, hlen with
      | f' + 1, hlen' =>
        have harg : dumpObj ((k, v) :: q :: ms'') ++ '}' :: rest
            = quoteL k ++ ':' :: ' '
              :: (dumpL v ++ (',' :: ' ' :: (dumpObj (q :: ms'') ++ '}' :: rest))) := by
          simp [dumpObj]
        rw [harg, hw,
          jMembers_member f' k w (',' :: ' ' :: (dumpObj (q :: ms'') ++ '}' :: rest)) rfl]
        show (jMembers (f' + 1) (' ' :: (dumpObj (q :: ms'') ++ '}' :: rest))).map
            (fun p : List (String × JVal) × List Char => ((k, w.toJVal) :: p.1, p.2)) = _
        have hlen'' : (q :: ms'').length ≤ f' := by
          simp only [List.length_cons] at hlen' ⊢
          omega
        match f', hlen'' with
        | f'' + 1, hlen2 =>
          rw [jMembers_ws (f'' + 1) _,
            ih (f'' + 1) rest (fun p2 hp2 => hsc p2 (List.mem_cons_of_mem _ hp2))
              (List.cons_ne_nil q ms'') hlen2]
          rfl

/-- A rendered string literal has at least its two quotes. -/
theorem quoteL_len (s : String) : 2 ≤ (quoteL s).length := by
  simp [quoteL]

/-- The rendered member list is at least as long as one character per
member, less one. -/
theorem dumpObj_len : ∀ ms : List (String × JVal), ms.length ≤ (dumpObj ms).length + 1
  | [] => by simp [dumpObj]
  | [(k, v)] => by simp [dumpObj]
  | (k, v) :: q :: ms'' => by
    have ih := dumpObj_len (q :: ms'')
    have hq := quoteL_len k
    simp only [dumpObj, List.length_cons, List.length_append] at *
    omega

/-- A rendered non-empty member list starts with the first key's quote. -/
theorem dumpObj_cons_head (p : String × JVal) (ms' : List (String × JVal))
    (rest : List Char) :
    ∃ W, dumpObj (p :: ms') ++ rest = '"' :: W := by
  obtain ⟨k, v⟩ := p
  cases ms' with
  | nil =>
    exact ⟨(k.toList.map jsonEscapeChar).flatten ++ '"' :: ':' :: ' ' :: (dumpL v ++ rest),
      by simp [dumpObj, quoteL]⟩
  | cons q ms'' =>
    exact ⟨(k.toList.map jsonEscapeChar).flatten
      ++ '"' :: ':' :: ' ' :: (dumpL v ++ ',' :: ' ' :: (dumpObj (q :: ms'') ++ rest)),
      by simp [dumpObj, quoteL]⟩

/-- The object round-trip at the value level: a rendered object with
scalar members parses back whole, given fuel above the member count. -/
theorem jVal_dumpObj (f : Nat) (ms : List (String × JVal)) (rest : List Char)
    (hsc : ∀ p ∈ ms, ∃ w : FVal, p.2 = FVal.toJVal w)
    (hlen : ms.length < f) :
    jVal (f + 1) (dumpL (.obj ms) ++ rest) = some (.obj ms, rest) := by
  cases ms with
  | nil => rfl
  | cons p ms' =>
    have harg : dumpL (.obj (p :: ms')) ++ rest
        = '\x7b' :: (dumpObj (p :: ms') ++ '}' :: rest) := by
      simp [dumpL]
    rw [harg]
    match f, hlen with
    | f' + 1, hlen' =>
      have hlen2 : (p :: ms').length ≤ f' := by omega
      show (match skipJWs (dumpObj (p :: ms') ++ '}' :: rest) with
        | '}' :: r2 => some (JVal.obj [], r2)
        | r2 => (jMembers (f' + 1) r2).map
            (fun pr : List (String × JVal) × List Char => (JVal.obj pr.1, pr.2))) = _
      obtain ⟨W, hW⟩ := dumpObj_cons_head p ms' ('}' :: rest)
      rw [hW]
      show (jMembers (f' + 1) ('"' :: W)).map
          (fun pr : List (String × JVal) × List Char => (JVal.obj pr.1, pr.2)) = _
      rw [← hW, jMembers_dumpObj (p :: ms') f' rest hsc (List.cons_ne_nil p ms') hlen2]
      rfl

/-- The full deserializer round-trip on rendered objects with scalar
members. -/
theorem loads_dumps_obj (ms : List (String × JVal))
    (hsc : ∀ p ∈ ms, ∃ w : FVal, p.2 = FVal.toJVal w) :
    loads (dumps (.obj ms)) = some (.obj ms) := by
  have hlen : ms.length < (dumpL (.obj ms)).length := by
    have h1 := dumpObj_len ms
    simp only [dumpL, List.length_cons, List.length_append, List.length_singleton] at *
    omega
  unfold loads dumps
  rw [show (String.mk (dumpL (.obj ms))).toList = dumpL (.obj ms) from rfl]
  rw [show dumpL (.obj ms) = dumpL (.obj ms) ++ [] from (List.append_nil _).symm]
  have hlen2 : ms.length < (dumpL (.obj ms) ++ []).length := by
    simpa using hlen
  have hj := jVal_dumpObj ((dumpL (.obj ms) ++ []).length) ms [] hsc hlen2
  simp only [hj]
  rfl

/-- With pairwise-distinct field names, looking a field up in the
serialized-field list finds exactly that field's serialized value. -/
theorem lookup_mapped (inst : List (String × FVal))
    (hnd : (inst.map Prod.fst).Nodup) :
    ∀ p ∈ inst,
      lookupField (inst.map (fun q => (q.1, q.2.toJVal))) p.1 = some (p.2.toJVal) := by
  induction inst with
  | nil => intro p hp; cases hp
  | cons q inst' ih =>
    intro p hp
    obtain ⟨k0, w0⟩ := q
    simp only [List.map_cons, List.nodup_cons] at hnd
    rcases List.mem_cons.mp hp with rfl | hp'
    · simp [lookupField]
    · have hk : k0 ≠ p.1 := by
        intro hcontr
        exact hnd.1 (hcontr ▸ List.mem_map.mpr ⟨p, hp', rfl⟩)
      simp only [List.map_cons, lookupField, if_neg hk]
      exact ih hnd.2 p hp'

/-- Validation against the schema recovers the instance whenever the
instance matches the schema and each field looks up to its serialized
value. -/
theorem validate_of_matches :
    ∀ (schema : List (String × FType)) (inst : List (String × FVal))
      (fields : List (String × JVal)),
      instMatches inst schema = true →
      (∀ p ∈ inst, lookupField fields p.1 = some (p.2.toJVal)) →
      validateFields fields schema = some inst := by
  intro schema
  induction schema with
  | nil =>
    intro inst fields hm _
    cases inst with
    | nil => rfl
    | cons p inst' => simp [instMatches] at hm
  | cons st schema' ih =>
    intro inst fields hm hlk
    obtain ⟨k, t⟩ := st
    cases inst with
    | nil => simp [instMatches] at hm
    | cons p inst' =>
      obtain ⟨k0, w⟩ := p
      simp only [instMatches, Bool.and_eq_true, beq_iff_eq] at hm
      obtain ⟨⟨hk, htype⟩, hm'⟩ := hm
      subst hk
      have hlk0 := hlk (k0, w) (List.mem_cons_self _ _)
      simp only at hlk0
      rw [validateFields, hlk0]
      have hcast : castField (FVal.toJVal w) t = some w := by
        cases w <;> cases t <;> first
          | rfl
          | exact Bool.noConfusion htype
      show (match castField w.toJVal t with
        | none => none
        | some fv => Option.map (fun rest => (k0, fv) :: rest)
            (validateFields fields schema')) = some ((k0, w) :: inst')
      rw [hcast, ih inst' fields hm' (fun p2 hp2 => hlk p2 (List.mem_cons_of_mem _ hp2))]
      rfl

/-- C9 (confirmed, for flat record models with scalar fields): for every
model schema and every instance matching it with pairwise-distinct field
names, serializing the instance to its JSON text (`BaseModel.json()`) and
casting that text back through the deriver (`cast_result`, i.e.
`parse_raw`) yields exactly the original instance. -/
theorem c9_serialize_cast_roundtrip (schema : List (String × FType))
    (inst : List (String × FVal))
    (hm : instMatches inst schema = true)
    (hnd : (inst.map Prod.fst).Nodup) :
    cast_result schema (modelJson inst) = .ok inst := by
  have hload : loads (modelJson inst)
      = some (.obj (inst.map (fun q => (q.1, q.2.toJVal)))) := by
    apply loads_dumps_obj
    intro p hp
    obtain ⟨q, hq, rfl⟩ := List.mem_map.mp hp
    exact ⟨q.2, rfl⟩
  unfold cast_result parse_raw
  rw [hload]
  show (match validateFields (inst.map (fun q => (q.1, q.2.toJVal))) schema with
    | some inst2 => (.ok inst2 : Except PyErr (List (String × FVal)))
    | none => .error (.castErr ("\n\nFailed to validate JSON: \n\n"
        ++ modelJson inst ++ "\n\n"))) = .ok inst
  rw [validate_of_matches schema inst _ hm (lookup_mapped inst hnd)]

/-- C9 witness: the round-trip at the spec's own scenario, the structured
schema `Answer(value: int)` with instance `value = 5`. -/
theorem c9_serialize_cast_roundtrip_witness :
    instMatches [("value", FVal.vint 5)] [("value", FType.fint)] = true ∧
    cast_result [("value", FType.fint)] (modelJson [("value", FVal.vint 5)])
      = .ok [("value", FVal.vint 5)] :=
  ⟨by decide, c9_serialize_cast_roundtrip [("value", FType.fint)]
    [("value", FVal.vint 5)] (by decide) (by decide)⟩
